import Mathlib

/-- Python whitespace characters (ASCII range) as used by str.strip and str.split. -/
def isPySpace (c : Char) : Bool :=
  c = ' ' || c = '\t' || c = '\n' || c = '\r' || c = '\x0b' || c = '\x0c'

/-- Python str.lower on one character (exact on the ASCII letters that occur here). -/
def charLower (c : Char) : Char :=
  if 'A' ≤ c ∧ c ≤ 'Z' then Char.ofNat (c.toNat + 32) else c

/-- Python str.startswith as a test on character lists. -/
def leadsWith : List Char → List Char → Bool
  | [], _ => true
  | _ :: _, [] => false
  | p :: ps, c :: cs => p = c && leadsWith ps cs

/-- Python str.strip with no arguments: drop leading and trailing whitespace. -/
def pyStrip (s : String) : String :=
  String.mk (((s.data.dropWhile isPySpace).reverse.dropWhile isPySpace).reverse)

/-- Python str.split('\n'), keeping empty pieces; on an empty input it yields one
empty piece, exactly as Python does. -/
def splitNl : List Char → List (List Char)
  | [] => [[]]
  | c :: cs =>
    match splitNl cs with
    | [] => [[c]]
    | l :: ls => if c = '\n' then [] :: l :: ls else (c :: l) :: ls

/-- The line list of generate_simple_summary: `conversation_text.strip().split('\n')`. -/
def pyLines (t : String) : List String :=
  (splitNl (pyStrip t).data).map String.mk

/-- Python str.split() with no argument: split on whitespace runs, dropping empty pieces. -/
def splitWs : List Char → List (List Char)
  | [] => [[]]
  | c :: cs =>
    match splitWs cs with
    | [] => [[c]]
    | l :: ls => if isPySpace c then [] :: l :: ls else (c :: l) :: ls

/-- `conversation_text.lower().split()` of line 29 of backup_summary.py. -/
def pyWords (t : String) : List String :=
  ((splitWs (t.data.map charLower)).filter (fun w => ¬ w.isEmpty)).map String.mk

/-- Python str slice s[:n]. -/
def pyTake (n : Nat) (s : String) : String := String.mk (s.data.take n)

/-- Python str.replace for a nonempty pattern: replace all non-overlapping
occurrences, scanning left to right. The fuel argument makes the recursion
structural; pyReplace below supplies fuel equal to the input length, which is
enough since every step consumes at least one character. -/
def pyReplaceAux (pat rep : List Char) : Nat → List Char → List Char
  | _, [] => []
  | 0, s => s
  | fuel + 1, c :: cs =>
    if pat ≠ [] ∧ pat = (c :: cs).take pat.length then
      rep ++ pyReplaceAux pat rep fuel ((c :: cs).drop pat.length)
    else
      c :: pyReplaceAux pat rep fuel cs

def pyReplace (pat rep s : List Char) : List Char :=
  pyReplaceAux pat rep s.length s

/-- The sender-id extraction of line 25 of backup_summary.py:
`line.split(":")[0].replace("User ", "").strip()`. -/
def extractUserId (line : String) : String :=
  pyStrip (String.mk (pyReplace "User ".data [] (line.data.takeWhile (fun c => c ≠ ':'))))

/-- One iteration of the user-id loop of lines 23-26: lines that carry the
"User " tag contribute their extracted id; the set is modelled as a
duplicate-free list in first-seen order, and only its size is used. -/
def addParticipant (acc : List String) (line : String) : List String :=
  if leadsWith "User ".data line.data then
    (if extractUserId line ∈ acc then acc else acc ++ [extractUserId line])
  else acc

/-- The user-id set of lines 22-26 of backup_summary.py. -/
def participantsFrom (lines : List String) : List String :=
  lines.foldl addParticipant []

def participantsOf (t : String) : List String := participantsFrom (pyLines t)

/-- One update of the word_freq dict: `word_freq[word] = word_freq.get(word, 0) + 1`,
on an association list kept in insertion order, as a Python dict keeps it. -/
def bump : List (String × Nat) → String → List (String × Nat)
  | [], w => [(w, 1)]
  | (k, v) :: rest, w => if k = w then (k, v + 1) :: rest else (k, v) :: bump rest w

/-- The tokens that are counted: words of the lower-cased text longer than 4 characters. -/
def longWords (t : String) : List String :=
  (pyWords t).filter (fun w => decide (4 < w.length))

/-- The word_freq dict of lines 30-33 of backup_summary.py. -/
def word_freq (t : String) : List (String × Nat) :=
  (longWords t).foldl bump []

/-- The comparison realised by `sorted(..., key=lambda x: x[1], reverse=True)`:
a stable sort into non-increasing counts. -/
def freqGe (a b : String × Nat) : Prop := b.2 ≤ a.2

instance : DecidableRel freqGe := fun a b => Nat.decLe b.2 a.2

/-- The top_words of lines 36-37: top 5 entries of the stable descending sort. -/
def top_words (t : String) : List String :=
  (((word_freq t).insertionSort freqGe).take 5).map Prod.fst

/-- The snippet of a line (lines 47 and 50): the trimmed text after the first colon
if the line has one, else the whole line. -/
def snippetOf (line : String) : String :=
  if ':' ∈ line.data then
    pyStrip (String.mk ((line.data.dropWhile (fun c => c ≠ ':')).tail))
  else line

/-- `first_msg[:30]` for the first line of the transcript. -/
def firstSnippet (t : String) : String := pyTake 30 (snippetOf ((pyLines t).headD ""))

/-- `last_msg[:30]` for the last line of the transcript. -/
def lastSnippet (t : String) : String := pyTake 30 (snippetOf ((pyLines t).getLastD ""))

/-- backup_summary.generate_simple_summary. The max_length argument is accepted and,
as in the source, never used. -/
def generate_simple_summary (conversation_text : String) (max_length : Nat) : String :=
  let lines := pyLines conversation_text
  let message_count := lines.length
  let user_ids := participantsFrom lines
  let tops := top_words conversation_text
  let s1 := "This conversation consists of " ++ toString message_count ++
    " messages between " ++ toString user_ids.length ++ " participants. "
  let s2 := if tops.isEmpty then s1
    else s1 ++ ("Key topics appear to include: " ++ String.intercalate ", " tops ++ ". ")
  match lines with
  | [] => s2
  | _ :: _ =>
    s2 ++ ("The conversation starts with '" ++ firstSnippet conversation_text ++ "...' ")
       ++ ("and ends with '" ++ lastSnippet conversation_text ++ "...'")

/-- The observable outcome of the one external generation request made by
get_gemini_summary in main.py: the credential may be missing, the response may
carry a text field, may carry a candidates list with text, may have an
unexpected shape, or the call may raise. This type records which of those
happened, so the adapter becomes a pure function of it. -/
inductive GeminiOutcome where
  | noKey
  | textResponse (s : String)
  | candidatesResponse (s : String)
  | unexpectedShape
  | apiError (msg : String)
deriving DecidableEq

/-- main.get_gemini_summary (lines 86-129 of main.py) as a function of the
outcome of the external call. Every branch returns a string; the bare-except
arm of the source (line 128) is unreachable because generate_simple_summary is
total, so the apiError branch always resolves to the fallback summary. -/
def get_gemini_summary (outcome : GeminiOutcome) (conversation_text : String)
    (max_length : Nat) : String :=
  match outcome with
  | .noKey =>
    "Error: Gemini API key not configured. Please set the GEMINI_API_KEY environment variable."
  | .textResponse s => s
  | .candidatesResponse s => s
  | .unexpectedShape => generate_simple_summary conversation_text max_length
  | .apiError _ => generate_simple_summary conversation_text max_length

/-- A stored chat document, with the fields the endpoints under verification read.
Timestamps are the ISO-8601 strings the service stores; the document store
compares them lexicographically. -/
structure StoredChat where
  user_id : String
  message : String
  timestamp : String
  conversation_id : String
deriving DecidableEq, Repr

/-- A stored summary document (collection `summaries`). -/
structure StoredSummary where
  conversation_id : String
  summary : String
  created_at : String
deriving DecidableEq, Repr

/-- The two collections the endpoints under verification touch. -/
structure DB where
  chats : List StoredChat
  summaries : List StoredSummary
deriving DecidableEq, Repr

/-- An endpoint response: a 200 payload or an HTTPException status with detail. -/
inductive ApiResult (α : Type) where
  | ok (value : α)
  | httpError (status : Nat) (detail : String)
deriving DecidableEq

/-- Lexicographic string comparison by code point, the order the document store
applies to the ISO-8601 timestamp strings. -/
def charListLe : List Char → List Char → Bool
  | [], _ => true
  | _ :: _, [] => false
  | a :: as, b :: bs => if a = b then charListLe as bs else decide (a < b)

lemma charListLe_total : ∀ a b : List Char, charListLe a b = true ∨ charListLe b a = true
  | [], _ => Or.inl rfl
  | _ :: _, [] => Or.inr rfl
  | a :: as, b :: bs => by
    by_cases hab : a = b
    · subst hab
      simpa [charListLe] using charListLe_total as bs
    · rcases lt_or_gt_of_ne hab with h | h
      · exact Or.inl (by simp [charListLe, hab, h])
      · exact Or.inr (by simp [charListLe, Ne.symm hab, h])

lemma charListLe_trans :
    ∀ a b c : List Char, charListLe a b = true → charListLe b c = true →
      charListLe a c = true
  | [], _, _, _, _ => rfl
  | _ :: _, [], _, hab, _ => by simp [charListLe] at hab
  | _ :: _, _ :: _, [], _, hbc => by simp [charListLe] at hbc
  | a :: as, b :: bs, c :: cs, hab, hbc => by
    by_cases h1 : a = b <;> by_cases h2 : b = c
    · subst h1; subst h2
      simp only [charListLe, if_pos rfl] at hab hbc ⊢
      exact charListLe_trans as bs cs hab hbc
    · subst h1
      simp [charListLe, h2] at hbc ⊢
      exact hbc
    · subst h2
      simp [charListLe, h1] at hab ⊢
      exact hab
    · simp only [charListLe, if_neg h1] at hab
      simp only [charListLe, if_neg h2] at hbc
      have hac : a < c := lt_trans (of_decide_eq_true hab) (of_decide_eq_true hbc)
      simp [charListLe, ne_of_lt hac, hac]

/-- String order used for timestamps. -/
def strLe (a b : String) : Prop := charListLe a.data b.data = true

instance : DecidableRel strLe := fun a b => instDecidableEqBool (charListLe a.data b.data) true

/-- Ascending timestamp order, `sort("timestamp", 1)`. -/
def tsLe (a b : StoredChat) : Prop := strLe a.timestamp b.timestamp

/-- Descending timestamp order, `sort("timestamp", -1)`. -/
def tsGe (a b : StoredChat) : Prop := strLe b.timestamp a.timestamp

instance : DecidableRel tsLe := fun a b =>
  instDecidableEqBool (charListLe a.timestamp.data b.timestamp.data) true
instance : DecidableRel tsGe := fun a b =>
  instDecidableEqBool (charListLe b.timestamp.data a.timestamp.data) true

instance : IsTotal StoredChat tsLe := ⟨fun a b => charListLe_total a.timestamp.data b.timestamp.data⟩
instance : IsTrans StoredChat tsLe := ⟨fun _ _ _ h1 h2 => charListLe_trans _ _ _ h1 h2⟩
instance : IsTotal StoredChat tsGe := ⟨fun a b => charListLe_total b.timestamp.data a.timestamp.data⟩
instance : IsTrans StoredChat tsGe := ⟨fun _ _ _ h1 h2 => charListLe_trans _ _ _ h2 h1⟩
instance : IsTotal (String × Nat) freqGe := ⟨fun a b => Nat.le_total b.2 a.2⟩
instance : IsTrans (String × Nat) freqGe := ⟨fun _ _ _ h1 h2 => Nat.le_trans h2 h1⟩

/-- main.retrieve_chat (lines 170-193): all messages of a conversation, sorted by
timestamp ascending, capped at 100 by to_list(length=100); 404 when none exist. -/
def retrieve_chat (db : DB) (conversation_id : String) : ApiResult (List StoredChat) :=
  let chats :=
    (((db.chats.filter (fun c => c.conversation_id == conversation_id)).insertionSort tsLe).take 100)
  if chats.isEmpty then .httpError 404 "Conversation not found" else .ok chats

/-- The Mongo query built by main.get_user_chats (lines 252-264), restricted to the
user filter and the optional inclusive date-range filters; the optional $text
keyword filter runs on the store's text index and is outside this embedding. -/
def matchesQuery (user_id : String) (start_date finish_date : Option String)
    (c : StoredChat) : Bool :=
  c.user_id == user_id
    && (match start_date with | none => true | some d => charListLe d.data c.timestamp.data)
    && (match finish_date with | none => true | some d => charListLe c.timestamp.data d.data)

/-- main.get_user_chats (lines 231-287): filter, sort by timestamp descending,
skip (page-1)*limit, take limit; also returns the total match count. -/
def get_user_chats (db : DB) (user_id : String) (page limit : Nat)
    (start_date finish_date : Option String) : List StoredChat × Nat :=
  let q := db.chats.filter (matchesQuery user_id start_date finish_date)
  let sorted := q.insertionSort tsGe
  let skip := (page - 1) * limit
  ((sorted.drop skip).take limit, q.length)

/-- main.delete_chat (lines 289-306): delete_many on chats; when at least one
message went, also delete_many on summaries and report the count, else 404. -/
def delete_chat (db : DB) (conversation_id : String) : ApiResult String × DB :=
  let deleted_count := db.chats.countP (fun c => c.conversation_id == conversation_id)
  let remaining := db.chats.filter (fun c => !(c.conversation_id == conversation_id))
  if deleted_count ≠ 0 then
    (.ok ("Chat deleted successfully. Removed " ++ toString deleted_count ++ " messages."),
     { chats := remaining,
       summaries := db.summaries.filter (fun s => !(s.conversation_id == conversation_id)) })
  else
    (.httpError 404 "Chat not found", { chats := remaining, summaries := db.summaries })

/-- First-seen deduplication: the order in which a Python dict lists its keys
after the insertions performed by the frequency loop. -/
def firstOccs (l : List String) : List String :=
  l.foldl (fun acc w => if w ∈ acc then acc else acc ++ [w]) []

/-- The line count described by the spec's words for step 1 of the fallback
summarizer: the number of lines that are non-empty after trimming, taken from
the newline split of the whole trimmed text. Stated from the spec, to be
compared with the count the source actually reports. -/
def specNonemptyTrimmedLines (t : String) : Nat :=
  ((pyLines t).filter (fun l => ¬ (pyStrip l).isEmpty)).length

/-- The sender-id extraction described by the spec's words for step 2 of the
fallback summarizer: take the substring before the first colon, strip the
literal "User " prefix (one leading occurrence), trim whitespace. Stated from
the spec, to be compared with extractUserId, which the source implements with
a replace-all. -/
def specExtractUserId (line : String) : String :=
  pyStrip (String.mk ((line.data.takeWhile (fun c => c ≠ ':')).drop "User ".data.length))

/-- The participant list described by the spec's words: distinct results of
specExtractUserId over the lines carrying the "User " tag, in first-seen order. -/
def specParticipantsOf (t : String) : List String :=
  (pyLines t).foldl
    (fun acc line =>
      if leadsWith "User ".data line.data then
        (if specExtractUserId line ∈ acc then acc else acc ++ [specExtractUserId line])
      else acc) []

lemma splitNl_ne_nil (cs : List Char) : splitNl cs ≠ [] := by
  cases cs with
  | nil => simp [splitNl]
  | cons c cs =>
    simp only [splitNl]
    cases splitNl cs with
    | nil => simp
    | cons l ls =>
      by_cases h : c = '\n' <;> simp [h]

lemma pyLines_ne_nil (t : String) : pyLines t ≠ [] := by
  simp only [pyLines, ne_eq, List.map_eq_nil_iff]
  exact splitNl_ne_nil _

lemma length_pyTake_le (n : Nat) (s : String) : (pyTake n s).length ≤ n := by
  show (s.data.take n).length ≤ n
  simp [List.length_take]

lemma map_fst_bump (acc : List (String × Nat)) (w : String) :
    (bump acc w).map Prod.fst =
      if w ∈ acc.map Prod.fst then acc.map Prod.fst else acc.map Prod.fst ++ [w] := by
  induction acc with
  | nil => simp [bump]
  | cons p rest ih =>
    obtain ⟨k, v⟩ := p
    by_cases h : k = w
    · subst h
      simp [bump]
    · simp only [bump, if_neg h, List.map_cons, List.mem_cons, ih]
      by_cases hw : w ∈ rest.map Prod.fst
      · simp [hw, Ne.symm h]
      · simp [hw, Ne.symm h]

lemma map_fst_foldl_bump (ws : List String) (acc : List (String × Nat)) :
    (ws.foldl bump acc).map Prod.fst =
      ws.foldl (fun a w => if w ∈ a then a else a ++ [w]) (acc.map Prod.fst) := by
  induction ws generalizing acc with
  | nil => rfl
  | cons w ws ih =>
    simp only [List.foldl_cons, ih, map_fst_bump]

lemma keys_word_freq (t : String) :
    (word_freq t).map Prod.fst = firstOccs (longWords t) := by
  simpa using map_fst_foldl_bump (longWords t) []

lemma mem_foldl_dedup (l : List String) (acc : List String) (x : String) :
    x ∈ l.foldl (fun a w => if w ∈ a then a else a ++ [w]) acc → x ∈ acc ∨ x ∈ l := by
  induction l generalizing acc with
  | nil => exact fun h => Or.inl h
  | cons w ws ih =>
    intro h
    simp only [List.foldl_cons] at h
    rcases ih _ h with h' | h'
    · by_cases hw : w ∈ acc
      · rw [if_pos hw] at h'
        exact Or.inl h'
      · rw [if_neg hw] at h'
        rcases List.mem_append.mp h' with h'' | h''
        · exact Or.inl h''
        · simp at h''
          subst h''
          exact Or.inr (List.mem_cons_self _ _)
    · exact Or.inr (List.mem_cons_of_mem _ h')

lemma mem_firstOccs (l : List String) (x : String) (h : x ∈ firstOccs l) : x ∈ l := by
  rcases mem_foldl_dedup l [] x h with h' | h'
  · simp at h'
  · exact h'

lemma long_of_mem_word_freq (t : String) (p : String × Nat) (hp : p ∈ word_freq t) :
    4 < p.1.length := by
  have hk : p.1 ∈ (word_freq t).map Prod.fst := List.mem_map_of_mem _ hp
  rw [keys_word_freq] at hk
  have := mem_firstOccs _ _ hk
  simp only [longWords, List.mem_filter] at this
  exact of_decide_eq_true this.2

lemma filter_orderedInsert_count (k : Nat) (a : String × Nat) (l : List (String × Nat)) :
    (l.orderedInsert freqGe a).filter (fun p => p.2 == k) =
      (if a.2 = k then [a] else []) ++ l.filter (fun p => p.2 == k) := by
  induction l with
  | nil =>
    by_cases h : a.2 = k
    · simp [List.orderedInsert, List.filter, h]
    · have hb : (a.2 == k) = false := beq_eq_false_iff_ne.mpr h
      simp [List.orderedInsert, List.filter, h, hb]
  | cons b bs ih =>
    by_cases hr : freqGe a b
    · rw [List.orderedInsert, if_pos hr]
      by_cases h : a.2 = k <;> simp [List.filter_cons, h]
    · rw [List.orderedInsert, if_neg hr]
      have hlt : a.2 < b.2 := Nat.lt_of_not_le hr
      rw [List.filter_cons, List.filter_cons, ih]
      by_cases ha : a.2 = k <;> by_cases hb : b.2 = k
      · omega
      · simp [ha, hb]
      · simp [ha, hb]
      · simp [ha, hb]

lemma filter_insertionSort_count (k : Nat) (l : List (String × Nat)) :
    (l.insertionSort freqGe).filter (fun p => p.2 == k) = l.filter (fun p => p.2 == k) := by
  induction l with
  | nil => rfl
  | cons a as ih =>
    rw [List.insertionSort, filter_orderedInsert_count, ih, List.filter_cons]
    by_cases h : a.2 = k <;> simp [h]

lemma addParticipant_spec (acc : List String) (line : String) (hacc : acc.Nodup) :
    (addParticipant acc line).Nodup ∧
      ∀ x, x ∈ addParticipant acc line ↔
        x ∈ acc ∨ (leadsWith "User ".data line.data = true ∧ extractUserId line = x) := by
  unfold addParticipant
  by_cases htag : leadsWith "User ".data line.data = true
  · rw [if_pos htag]
    by_cases hmem : extractUserId line ∈ acc
    · rw [if_pos hmem]
      refine ⟨hacc, fun x => ⟨fun h => Or.inl h, ?_⟩⟩
      rintro (h | ⟨-, rfl⟩)
      · exact h
      · exact hmem
    · rw [if_neg hmem]
      refine ⟨?_, fun x => ?_⟩
      · simp [List.nodup_append, hacc, hmem]
      · simp [List.mem_append, htag, eq_comm]
  · rw [if_neg htag]
    refine ⟨hacc, fun x => ?_⟩
    simp [htag]

lemma participantsAux_spec (lines : List String) :
    ∀ acc : List String, acc.Nodup →
      (lines.foldl addParticipant acc).Nodup ∧
        ∀ x, x ∈ lines.foldl addParticipant acc ↔
          x ∈ acc ∨ ∃ l, l ∈ lines ∧ leadsWith "User ".data l.data = true ∧
            extractUserId l = x := by
  induction lines with
  | nil =>
    intro acc hacc
    refine ⟨hacc, fun x => ?_⟩
    simp
  | cons line ls ih =>
    intro acc hacc
    obtain ⟨hnd, hmem⟩ := addParticipant_spec acc line hacc
    obtain ⟨hnd', hmem'⟩ := ih (addParticipant acc line) hnd
    refine ⟨hnd', fun x => ?_⟩
    rw [List.foldl_cons, hmem' x]
    constructor
    · rintro (h | ⟨l, hl, hcond⟩)
      · rcases (hmem x).mp h with h' | ⟨ht, he⟩
        · exact Or.inl h'
        · exact Or.inr ⟨line, List.mem_cons_self _ _, ht, he⟩
      · exact Or.inr ⟨l, List.mem_cons_of_mem _ hl, hcond⟩
    · rintro (h | ⟨l, hl, ht, he⟩)
      · exact Or.inl ((hmem x).mpr (Or.inl h))
      · rcases List.mem_cons.mp hl with rfl | hl'
        · exact Or.inl ((hmem x).mpr (Or.inr ⟨ht, he⟩))
        · exact Or.inr ⟨l, hl', ht, he⟩

lemma summary_opens_with_line_count (t : String) (n : Nat) :
    ∃ rest, generate_simple_summary t n =
      "This conversation consists of " ++ toString (pyLines t).length ++
        " messages between " ++ rest := by
  unfold generate_simple_summary
  rcases h : pyLines t with _ | ⟨l, ls⟩
  · exact absurd h (pyLines_ne_nil t)
  · cases htop : (top_words t).isEmpty
    · refine ⟨toString (participantsFrom (l :: ls)).length ++ " participants. " ++
        ("Key topics appear to include: " ++ String.intercalate ", " (top_words t) ++ ". ") ++
        ("The conversation starts with '" ++ firstSnippet t ++ "...' ") ++
        ("and ends with '" ++ lastSnippet t ++ "...'"), ?_⟩
      simp only [htop, Bool.false_eq_true, if_false]
      simp [String.append_assoc]
    · refine ⟨toString (participantsFrom (l :: ls)).length ++ " participants. " ++
        ("The conversation starts with '" ++ firstSnippet t ++ "...' ") ++
        ("and ends with '" ++ lastSnippet t ++ "...'"), ?_⟩
      simp only [htop, if_true]
      simp [String.append_assoc]

/-- Claim C1 counterexample: on the empty string the fallback summarizer does not
report line_count 0 with no starts/ends clauses; instead it reports 1 message and
emits both clauses with empty snippets, because stripping and splitting the empty
string yields one empty line. -/
theorem c1_empty_input_counterexample :
    generate_simple_summary "" 100 ≠
        "This conversation consists of 0 messages between 0 participants. " ∧
      generate_simple_summary "" 100 =
        "This conversation consists of 1 messages between 0 participants. The conversation starts with '...' and ends with '...'" := by
  constructor
  · decide
  · decide

/-- Claim C1 (amended): for the empty-string input the fallback summarizer does not
fail; splitting the stripped empty string yields one empty line, so it returns a
summary reporting line_count 1 and participant_count 0, with no key-topics clause,
and with "starts with"/"ends with" clauses whose snippets are empty. -/
theorem c1_empty_input :
    generate_simple_summary "" 100 =
      "This conversation consists of 1 messages between 0 participants. The conversation starts with '...' and ends with '...'" := by
  decide

/-- Claim C2 counterexample: for the non-empty transcript "a\n\nb", the trimmed
newline split has an interior empty line, so the summarizer reports 3 messages
while the number of non-empty-trimmed lines is 2. -/
theorem c2_line_count_counterexample :
    ("a\n\nb" : String) ≠ "" ∧
      pyLines "a\n\nb" = ["a", "", "b"] ∧
      specNonemptyTrimmedLines "a\n\nb" = 2 ∧
      generate_simple_summary "a\n\nb" 100 =
        "This conversation consists of 3 messages between 0 participants. The conversation starts with 'a...' and ends with 'b...'" := by
  refine ⟨by decide, by decide, by decide, by decide⟩

/-- Claim C2 (amended): for every non-empty transcript, the line_count reported in
the summary string equals the total number of lines obtained by trimming the whole
text and splitting on newline, interior empty lines included. -/
theorem c2_line_count (t : String) (n : Nat) (h : t ≠ "") :
    ∃ rest, generate_simple_summary t n =
      "This conversation consists of " ++ toString (pyLines t).length ++
        " messages between " ++ rest :=
  summary_opens_with_line_count t n

/-- Claim C2 witness. -/
theorem c2_line_count_witness :
    ∃ rest, generate_simple_summary "User a: hi" 100 =
      "This conversation consists of " ++ toString (pyLines "User a: hi").length ++
        " messages between " ++ rest :=
  c2_line_count "User a: hi" 100 (by decide)

/-- Claim C3: the primary summarizer adapter always returns a string. When no API
credential is configured it returns the literal configuration-error string, and on
an unexpected response shape or any API exception it returns exactly the fallback
summary of the same arguments. -/
theorem c3_gemini_adapter (o : GeminiOutcome) (t : String) (n : Nat) :
    (o = .noKey → get_gemini_summary o t n =
      "Error: Gemini API key not configured. Please set the GEMINI_API_KEY environment variable.") ∧
    (o = .unexpectedShape → get_gemini_summary o t n = generate_simple_summary t n) ∧
    (∀ m, o = .apiError m → get_gemini_summary o t n = generate_simple_summary t n) := by
  refine ⟨fun h => ?_, fun h => ?_, fun m h => ?_⟩ <;> subst h <;> rfl

/-- Claim C3 witness. -/
theorem c3_gemini_adapter_witness :
    get_gemini_summary .unexpectedShape "hi there" 7 = generate_simple_summary "hi there" 7 :=
  (c3_gemini_adapter .unexpectedShape "hi there" 7).2.1 rfl

/-- Claim C4: the frequency table counts only tokens of the lower-cased
whitespace split longer than 4 characters, so no token of length at most 4 ever
reaches the top-5 key topics; and on the transcript
"User a: hello world\nUser b: world hello" the table is hello mapped to 2 and world
mapped to 2 and both tokens appear among the top 5. -/
theorem c4_key_topics :
    (∀ t w, w ∈ top_words t → 4 < w.length) ∧
      word_freq "User a: hello world\nUser b: world hello" = [("hello", 2), ("world", 2)] ∧
      "hello" ∈ top_words "User a: hello world\nUser b: world hello" ∧
      "world" ∈ top_words "User a: hello world\nUser b: world hello" := by
  refine ⟨fun t w hw => ?_, by decide, by decide, by decide⟩
  simp only [top_words, List.mem_map] at hw
  obtain ⟨p, hp, rfl⟩ := hw
  have hp' : p ∈ (word_freq t).insertionSort freqGe := List.mem_of_mem_take hp
  have hp'' : p ∈ word_freq t := (List.perm_insertionSort freqGe (word_freq t)).mem_iff.mp hp'
  exact long_of_mem_word_freq t p hp''

/-- Claim C4 witness. -/
theorem c4_key_topics_witness : 4 < ("hello" : String).length :=
  c4_key_topics.1 "User a: hello world\nUser b: world hello" "hello" (by decide)

/-- Claim C7: the fallback summarizer accepts a target word count but never uses
it; any two length budgets produce the identical summary string. -/
theorem c7_max_length_ignored (t : String) (n m : Nat) :
    generate_simple_summary t n = generate_simple_summary t m := rfl

/-- Claim C5 counterexample: the source removes every occurrence of "User " from
the pre-colon text, not only the leading prefix, so on
"User User a: hi\nUser a: yo" it extracts "a" from both lines and counts one
participant, while the prefix-stripping procedure of the claim yields the two
distinct senders "User a" and "a". -/
theorem c5_participants_counterexample :
    (participantsOf "User User a: hi\nUser a: yo").length = 1 ∧
      specParticipantsOf "User User a: hi\nUser a: yo" = ["User a", "a"] ∧
      (specParticipantsOf "User User a: hi\nUser a: yo").length = 2 := by
  refine ⟨by decide, by decide, by decide⟩

/-- Claim C5 (amended): participant_count equals the number of distinct sender
identifiers obtained by taking, for each line that starts with "User ", the
substring before the first colon, removing every occurrence of "User " from it
(Python str.replace removes all occurrences, not only the prefix) and trimming
whitespace; for a transcript with zero "User "-prefixed lines the set is empty
and the summary still renders. -/
theorem c5_participants (t : String) :
    (participantsOf t).Nodup ∧
      (∀ x, x ∈ participantsOf t ↔
        ∃ l, l ∈ pyLines t ∧ leadsWith "User ".data l.data = true ∧ extractUserId l = x) ∧
      ((∀ l ∈ pyLines t, leadsWith "User ".data l.data = false) →
        participantsOf t = []) := by
  obtain ⟨hnd, hmem⟩ := participantsAux_spec (pyLines t) [] List.nodup_nil
  refine ⟨hnd, fun x => ?_, fun hall => ?_⟩
  · show x ∈ (pyLines t).foldl addParticipant [] ↔ _
    simpa using hmem x
  · rw [List.eq_nil_iff_forall_not_mem]
    intro x hx
    rcases (hmem x).mp hx with h0 | ⟨l, hl, ht, -⟩
    · simp at h0
    · have := hall l hl
      rw [ht] at this
      cases this

/-- Claim C5 witness. -/
theorem c5_participants_witness : participantsOf "hi\nyo" = [] :=
  (c5_participants "hi\nyo").2.2 (by decide)

/-- Claim C6: for every non-empty transcript, the quoted start and end snippets in
the summary are the post-colon (trimmed) text of the first/last line (or the whole
line when it has no colon) cut to at most 30 characters. -/
theorem c6_snippet_truncation (t : String) (n : Nat) (h : t ≠ "") :
    (firstSnippet t).length ≤ 30 ∧ (lastSnippet t).length ≤ 30 ∧
      ∃ pre, generate_simple_summary t n =
        pre ++ ("The conversation starts with '" ++ firstSnippet t ++ "...' ")
            ++ ("and ends with '" ++ lastSnippet t ++ "...'") := by
  refine ⟨length_pyTake_le 30 _, length_pyTake_le 30 _, ?_⟩
  unfold generate_simple_summary
  rcases hp : pyLines t with _ | ⟨l, ls⟩
  · exact absurd hp (pyLines_ne_nil t)
  · exact ⟨_, rfl⟩

/-- Claim C6 witness. -/
theorem c6_snippet_truncation_witness :
    (firstSnippet "x: hello").length ≤ 30 ∧ (lastSnippet "x: hello").length ≤ 30 ∧
      ∃ pre, generate_simple_summary "x: hello" 1 =
        pre ++ ("The conversation starts with '" ++ firstSnippet "x: hello" ++ "...' ")
            ++ ("and ends with '" ++ lastSnippet "x: hello" ++ "...'") :=
  c6_snippet_truncation "x: hello" 1 (by decide)

/-- Claim C8: the delete endpoint removes every message with the given
conversation id, and when at least one message existed it also removes every
summary for that id and answers 200 with a message reporting the removed count,
while with no matching message it answers 404 and leaves the store unchanged. -/
theorem c8_delete_chat (db : DB) (cid : String) :
    ((∃ c ∈ db.chats, c.conversation_id = cid) →
      (delete_chat db cid).1 = .ok ("Chat deleted successfully. Removed " ++
          toString (db.chats.countP (fun c => c.conversation_id == cid)) ++ " messages.") ∧
      (∀ c ∈ (delete_chat db cid).2.chats, c.conversation_id ≠ cid) ∧
      (∀ s ∈ (delete_chat db cid).2.summaries, s.conversation_id ≠ cid)) ∧
    ((¬ ∃ c ∈ db.chats, c.conversation_id = cid) →
      (delete_chat db cid).1 = .httpError 404 "Chat not found" ∧
      (delete_chat db cid).2 = db) := by
  constructor
  · intro hex
    have hcount : db.chats.countP (fun c => c.conversation_id == cid) ≠ 0 := by
      obtain ⟨c, hc, he⟩ := hex
      have : 0 < db.chats.countP (fun c => c.conversation_id == cid) :=
        List.countP_pos_iff.mpr ⟨c, hc, by simp [he]⟩
      omega
    refine ⟨?_, ?_, ?_⟩
    · simp only [delete_chat]
      rw [if_pos hcount]
    · intro c hc
      simp only [delete_chat] at hc
      rw [if_pos hcount] at hc
      simp only [List.mem_filter] at hc
      simpa using hc.2
    · intro s hs
      simp only [delete_chat] at hs
      rw [if_pos hcount] at hs
      simp only [List.mem_filter] at hs
      simpa using hs.2
  · intro hnex
    have hcount : db.chats.countP (fun c => c.conversation_id == cid) = 0 := by
      rw [List.countP_eq_zero]
      intro a ha
      simp only [beq_iff_eq]
      exact fun he => hnex ⟨a, ha, he⟩
    have hfil : db.chats.filter (fun c => !(c.conversation_id == cid)) = db.chats := by
      rw [List.filter_eq_self]
      intro a ha
      have := List.countP_eq_zero.mp hcount a ha
      simpa using this
    have hno : ¬ db.chats.countP (fun c => c.conversation_id == cid) ≠ 0 :=
      fun hne => hne hcount
    constructor
    · simp only [delete_chat]
      rw [if_neg hno]
    · simp only [delete_chat]
      rw [if_neg hno]
      show DB.mk (db.chats.filter (fun c => !(c.conversation_id == cid))) db.summaries = db
      rw [hfil]

/-- Claim C8 witness. -/
theorem c8_delete_chat_witness :
    (delete_chat ⟨[⟨"u", "hi", "t1", "c1"⟩], [⟨"c1", "s", "t2"⟩]⟩ "c1").1 =
        .ok ("Chat deleted successfully. Removed " ++
          toString (([⟨"u", "hi", "t1", "c1"⟩] : List StoredChat).countP
            (fun c => c.conversation_id == "c1")) ++ " messages.") ∧
      (∀ c ∈ (delete_chat ⟨[⟨"u", "hi", "t1", "c1"⟩], [⟨"c1", "s", "t2"⟩]⟩ "c1").2.chats,
        c.conversation_id ≠ "c1") ∧
      (∀ s ∈ (delete_chat ⟨[⟨"u", "hi", "t1", "c1"⟩], [⟨"c1", "s", "t2"⟩]⟩ "c1").2.summaries,
        s.conversation_id ≠ "c1") :=
  (c8_delete_chat ⟨[⟨"u", "hi", "t1", "c1"⟩], [⟨"c1", "s", "t2"⟩]⟩ "c1").1
    ⟨⟨"u", "hi", "t1", "c1"⟩, by decide, by decide⟩

/-- Claim C9: the top-5 key-topic selection is deterministic with ties broken by
first occurrence: the sorted table is non-increasing in count, entries of each
fixed count keep exactly the order they have in the frequency table, and the
frequency table lists its keys in first-occurrence order of the counted tokens. -/
theorem c9_topic_tiebreak (t : String) :
    top_words t = (((word_freq t).insertionSort freqGe).take 5).map Prod.fst ∧
      List.Sorted freqGe ((word_freq t).insertionSort freqGe) ∧
      (∀ k, ((word_freq t).insertionSort freqGe).filter (fun p => p.2 == k) =
        (word_freq t).filter (fun p => p.2 == k)) ∧
      (word_freq t).map Prod.fst = firstOccs (longWords t) :=
  ⟨rfl, List.sorted_insertionSort freqGe _, fun k => filter_insertionSort_count k _,
    keys_word_freq t⟩

/-- Claim C10: the user-history endpoint returns the requested page of the
timestamp-descending sort of the user's matching messages, so its page is
pairwise newest-first, while conversation retrieval returns a timestamp-ascending
list, pairwise oldest-first: the two endpoints sort in opposite orders. -/
theorem c10_history_ordering (db : DB) (uid : String) (page limit : Nat)
    (start_date finish_date : Option String) :
    ((get_user_chats db uid page limit start_date finish_date).1).Pairwise tsGe ∧
      (get_user_chats db uid page limit start_date finish_date).1 =
        (((db.chats.filter (matchesQuery uid start_date finish_date)).insertionSort
          tsGe).drop ((page - 1) * limit)).take limit ∧
      (∀ cid chats, retrieve_chat db cid = .ok chats → chats.Pairwise tsLe) := by
  refine ⟨?_, rfl, ?_⟩
  · have hs := List.sorted_insertionSort tsGe
      (db.chats.filter (matchesQuery uid start_date finish_date))
    exact List.Pairwise.sublist ((List.take_sublist _ _).trans (List.drop_sublist _ _)) hs
  · intro cid chats h
    simp only [retrieve_chat] at h
    split at h
    · cases h
    · injection h with h'
      subst h'
      exact List.Pairwise.sublist (List.take_sublist _ _) (List.sorted_insertionSort tsLe _)

/-- Claim C10 witness. -/
theorem c10_history_ordering_witness :
    List.Pairwise tsLe ([⟨"u", "a", "t1", "c1"⟩, ⟨"u", "b", "t2", "c1"⟩] : List StoredChat) :=
  (c10_history_ordering ⟨[⟨"u", "b", "t2", "c1"⟩, ⟨"u", "a", "t1", "c1"⟩], []⟩ "u" 1 10
      none none).2.2 "c1" [⟨"u", "a", "t1", "c1"⟩, ⟨"u", "b", "t2", "c1"⟩] (by decide)
